import Mathlib

/-!
Shallow embedding of the transaction reliability layer of the
flappysomnia repository: the transaction queue manager
(src/hooks/useTransactionQueue.ts), the custodial wallet helpers
(src/hooks/useCustodialWallet.ts), the game-action orchestrator and
multi-endpoint dispatcher (useFlappyContract: startGame / endGame /
sendTransactionWithRetry), and the leaderboard merge
(src/hooks/useLeaderboard.ts).

JavaScript conventions used throughout the embedding:
- a field that can be absent or `undefined` at runtime is an `Option`;
  spreading an object that carries an explicit `undefined` value for a
  key overwrites the target key with `undefined` (`none`);
- `String.prototype.includes pat` is modelled by `jsIncludes`, an exact
  case-sensitive substring test;
- JavaScript number arithmetic on the integral values in play (ids,
  scores, timestamps, wei amounts) is exact, so `Int`/`Nat` model it;
  `BigInt` / BigNumber division truncates, which on the non-negative
  operands appearing here agrees with `Nat` division;
- `Math.floor (x / 1000)` on an `Int` timestamp is `Int.fdiv x 1000`.
-/

namespace FlappySomnia

/-- JavaScript `s.includes pat`: exact, case-sensitive substring test,
modelled as occurrence of the pattern character list inside the string
character list. -/
def jsIncludes (pat s : String) : Bool :=
  decide (pat.data <:+: s.data)

/-- Status values of a queued transaction record
(useTransactionQueue.ts, `QueuedTransaction.status`). -/
inductive TxStatus
  | pending
  | confirmed
  | failed
deriving DecidableEq, Repr

/-- The `type` discriminator of a queued transaction record:
`start` | `end` | `jump`. -/
inductive TxKind
  | start
  | endGame
  | jump
deriving DecidableEq, Repr

/-- The kind-specific `data` payload attached to queue records.  Every
field is optional: the source stores ad-hoc object literals here
(gameId / finalScore / totalJumps / jumps / address / localOnly /
error / message / batchNumber / totalBatches). -/
structure TxData where
  gameId : Option Int := none
  finalScore : Option Int := none
  totalJumps : Option Int := none
  jumps : Option Int := none
  address : Option String := none
  localOnly : Option Bool := none
  error : Option String := none
  message : Option String := none
  batchNumber : Option Int := none
  totalBatches : Option Int := none
deriving DecidableEq, Repr

/-- A transaction record of the queue (useTransactionQueue.ts lines 3-11).
`status` is declared required in TypeScript, but `updateTransaction`
can overwrite it with `undefined` at runtime (the normalized update
object always carries a `status` key), so it is an `Option` here. -/
structure QueuedTransaction where
  id : String
  type : TxKind
  status : Option TxStatus
  timestamp : Int
  hash : Option String := none
  data : Option TxData := none
  error : Option String := none
deriving DecidableEq, Repr

/-- A `Partial QueuedTransaction` argument to `updateTransaction`: a
field is `some v` exactly when the update object of the caller carries that
key. -/
structure TxUpdates where
  id : Option String := none
  type : Option TxKind := none
  status : Option TxStatus := none
  timestamp : Option Int := none
  hash : Option String := none
  data : Option TxData := none
  error : Option String := none
deriving DecidableEq, Repr

/-- Overwrite an optional field of a record with the update value when
the update carries the key, keeping the old value otherwise. -/
def mergeField {α : Type} (u old : Option α) : Option α :=
  match u with
  | some v => some v
  | none => old

/-- Spread of the update object with its `status` key removed over an
existing record: `{ ...newQueue[index], ...otherUpdates }`
(useTransactionQueue.ts lines 89-93).  Every field other than `status`
is overwritten when the update carries the key and kept otherwise;
`status` is kept. -/
def mergeOtherFields (tx : QueuedTransaction) (u : TxUpdates) : QueuedTransaction :=
  { id := u.id.getD tx.id
    type := u.type.getD tx.type
    status := tx.status
    timestamp := u.timestamp.getD tx.timestamp
    hash := mergeField u.hash tx.hash
    data := mergeField u.data tx.data
    error := mergeField u.error tx.error }

/-- Merge of the full normalized update object over an existing record
(useTransactionQueue.ts lines 94-98).  The normalization at lines 70-74
writes `status: updates.status ? String(updates.status) : undefined`,
so the spread object always carries a `status` key and the existing
status is overwritten even when the caller supplied none. -/
def mergeAllFields (tx : QueuedTransaction) (u : TxUpdates) : QueuedTransaction :=
  { mergeOtherFields tx u with status := u.status }

/-- The body of `updateTransaction(id, updates)`
(useTransactionQueue.ts lines 67-113), acting on the queue list.
It finds the first record whose `id` matches; if none matches the queue
is returned unchanged.  When the update tries to set `status: pending`
on a record whose current status is `confirmed`, the `status` key is
dropped from the update before merging; otherwise the whole normalized
update (including its always-present `status` key) is merged. -/
def updateTransaction (id : String) (u : TxUpdates)
    (q : List QueuedTransaction) : List QueuedTransaction :=
  match q.findIdx? (fun tx => tx.id == id) with
  | none => q
  | some i =>
    match q[i]? with
    | none => q
    | some tx =>
      if u.status = some TxStatus.pending ∧ tx.status = some TxStatus.confirmed then
        q.set i (mergeOtherFields tx u)
      else
        q.set i (mergeAllFields tx u)

/-- The predicate recomputed by the queue manager:
`queue.some(tx => tx.status === pending)`. -/
def hasPendingTx (q : List QueuedTransaction) : Bool :=
  q.any (fun tx => tx.status == some TxStatus.pending)

/-- The pair of React states owned by `useTransactionQueue`: the record
list and the cached `isPending` boolean. -/
structure QueueFlagState where
  queue : List QueuedTransaction
  isPending : Bool
deriving DecidableEq, Repr

/-- The body of `checkAndFixPendingState`
(useTransactionQueue.ts lines 142-156).  It recomputes whether a
pending record exists; if the cached flag is `true` while no pending
record exists the flag is reset to `false`, otherwise the state is left
unchanged.  The recomputed predicate is returned. -/
def checkAndFixPendingState (s : QueueFlagState) : Bool × QueueFlagState :=
  let actuallyHasPending := hasPendingTx s.queue
  if s.isPending ∧ ¬actuallyHasPending then
    (actuallyHasPending, { s with isPending := false })
  else
    (actuallyHasPending, s)

/-- The body of `clearOldTransactions` (useTransactionQueue.ts lines
122-131) with `Date.now()` passed in as `now`: keep a record iff its
status is `pending` or its timestamp is strictly newer than one hour
ago. -/
def clearOldTransactions (now : Int)
    (q : List QueuedTransaction) : List QueuedTransaction :=
  let oneHourAgo := now - 60 * 60 * 1000
  q.filter (fun tx =>
    tx.status == some TxStatus.pending || decide (tx.timestamp > oneHourAgo))

/-! Gas price computation (claim C9).  Both call sites compute the same
legacy gas price: `feeData.gasPrice` scaled by `150 / 100` with
truncating division (BigNumber.div and BigInt division both truncate;
the operands are non-negative, so `Nat` division models them), or the
hardcoded default `20e9` wei (20 gwei) when no estimate is available. -/

/-- Gas price of `handleEndGame` (useCustodialWallet.ts lines 446-448):
`feeData.gasPrice ? BigNumber.from(feeData.gasPrice).mul(150).div(100)
: BigNumber.from(20e9)`. -/
def handleEndGameGasPrice (feeGasPrice : Option Nat) : Nat :=
  match feeGasPrice with
  | some p => p * 150 / 100
  | none => 20000000000

/-- Gas price of `sendTransactionWithRetry` (useFlappyContract lines
142-144): `feeData.gasPrice ? (BigInt(feeData.gasPrice) * 150n) / 100n
: BigInt(20e9)`. -/
def retryGasPrice (feeGasPrice : Option Nat) : Nat :=
  match feeGasPrice with
  | some p => p * 150 / 100
  | none => 20000000000

/-! Jump batching (claim C10): `addJumpToBatch` of
useCustodialWallet.ts lines 352-394. -/

/-- A jump event `{ timestamp, scoreAtJump, multiplierAtJump }`. -/
structure JumpData where
  timestamp : Int
  scoreAtJump : Int
  multiplierAtJump : Int
deriving DecidableEq, Repr

/-- The jump object built at useCustodialWallet.ts lines 353-357:
`scoreAtJump: jumpData.scoreAtJump || 1` and
`multiplierAtJump: jumpData.multiplierAtJump || 1`.  On the integral
values in play the only falsy number is `0`, so `x || 1` is
`if x = 0 then 1 else x`.  `Math.floor` on the integral timestamp is
the identity. -/
def normalizeJump (jumpData : JumpData) : JumpData :=
  { timestamp := jumpData.timestamp
    scoreAtJump := if jumpData.scoreAtJump = 0 then 1 else jumpData.scoreAtJump
    multiplierAtJump :=
      if jumpData.multiplierAtJump = 0 then 1 else jumpData.multiplierAtJump }

/-- JavaScript `l.slice(-n)`: the last `n` elements of the list. -/
def lastN {α : Type} (n : Nat) (l : List α) : List α :=
  l.drop (l.length - n)

/-- The jump-related React states of `useCustodialWallet`, together
with the shared transaction queue it appends batch records to. -/
structure WalletJumpState where
  pendingJumps : List JumpData
  processedJumps : List JumpData
  totalJumps : Int
  queue : List QueuedTransaction
deriving Repr

/-- The body of `addJumpToBatch` (useCustodialWallet.ts lines 352-394)
with `Date.now()` passed in as `now`.  The incoming jump is normalized,
the total counter is incremented and the jump appended to the pending
buffer; once the buffer reaches 10 the first 10 jumps are flushed into
the rolling processed buffer (capped at the most recent 50) and a
Confirmed JumpBatch record is enqueued.  `batchNumber` and
`totalBatches` use the captured pre-increment `totalJumps`;
`Math.ceil (x / 10)` on integers is `(x + 9).fdiv 10`. -/
def addJumpToBatch (now : Int) (jumpData : JumpData)
    (st : WalletJumpState) : WalletJumpState :=
  let jump := normalizeJump jumpData
  let newJumps := st.pendingJumps ++ [jump]
  if 10 ≤ newJumps.length then
    let batchToProcess := newJumps.take 10
    { pendingJumps := newJumps.drop 10
      processedJumps := lastN 50 (st.processedJumps ++ batchToProcess)
      totalJumps := st.totalJumps + 1
      queue := st.queue ++
        [{ id := s!"batch-{now}"
           type := TxKind.jump
           status := some TxStatus.confirmed
           timestamp := now
           data := some
             { jumps := some (batchToProcess.length : Int)
               batchNumber := some ((st.totalJumps + 1).fdiv 10 + 1)
               totalBatches := some ((st.totalJumps + 2 + 9).fdiv 10) } }] }
  else
    { st with pendingJumps := newJumps, totalJumps := st.totalJumps + 1 }

/-! Multi-endpoint dispatcher (claim C7): `sendTransactionWithRetry`
of useFlappyContract (src/unnamed/part_000 lines 95-227). -/

/-- The receipt returned by `tx.wait()`; `statusOk` is the truthiness
of `receipt.status`. -/
structure TxReceipt where
  hash : String
  statusOk : Bool
deriving DecidableEq, Repr

/-- The mutable `options` object threaded through the dispatcher; only
its `gasLimit` key is touched by the source. -/
structure TxOptions where
  gasLimit : Option Nat := none
deriving DecidableEq, Repr

/-- Outcomes of the asynchronous provider and contract calls made for
one endpoint attempt, each either an error message or a value. -/
structure EndpointEnv where
  blockNumber : Except String Nat
  nonce : Except String Nat
  feeGasPrice : Option Nat
  balance : Nat
  gasEstimate : Except String Nat
  send : Except String String
  wait : Except String TxReceipt
deriving Repr

/-- Decimal digit characters of a natural number, most significant
first, computed with a fuel argument that always suffices (the number
of decimal digits never exceeds the number itself plus one). -/
def natDecimalAux : Nat → Nat → List Char
  | 0, _ => []
  | fuel + 1, n =>
    if n < 10 then [Char.ofNat (48 + n)]
    else natDecimalAux fuel (n / 10) ++ [Char.ofNat (48 + n % 10)]

/-- Decimal digit characters of a natural number, most significant
first (the standard decimal numeral). -/
def natDecimal (n : Nat) : List Char :=
  natDecimalAux (n + 1) n

/-- The decimal ether rendering `ethers.utils.formatEther(wei)`:
integer part, a dot, then the 18-decimal fraction with trailing zeros
trimmed (at least one fractional digit is kept). -/
def formatEther (wei : Nat) : String :=
  let ip := natDecimal (wei / 10 ^ 18)
  let fracRaw := natDecimal (wei % 10 ^ 18)
  let fracPadded := List.replicate (18 - fracRaw.length) '0' ++ fracRaw
  let fracTrimmed := (fracPadded.reverse.dropWhile (fun c => c == '0')).reverse
  String.mk (ip ++ '.' :: (if fracTrimmed.isEmpty then ['0'] else fracTrimmed))

/-- The message thrown by the balance check (useFlappyContract lines
151-152): note the capital I, which the later case-sensitive
classification of `insufficient funds` does not match. -/
def insufficientFundsThrow (balance : Nat) : String :=
  "Insufficient funds. Need at least " ++ formatEther balance ++ " STT for gas."

/-- The error classification of the dispatchers outer catch
(useFlappyContract lines 208-217): a fixed set of case-sensitive
substring matches over the original error message, defaulting to
`Transaction failed`. -/
def retryErrorMessage (msg : String) : String :=
  if jsIncludes "insufficient funds" msg then
    "Not enough STT for gas. Please make sure your wallet has enough STT tokens."
  else if jsIncludes "nonce" msg then
    "Transaction nonce error. Please try again."
  else if jsIncludes "timeout" msg then
    "Transaction timed out. Please try again."
  else if jsIncludes "user rejected" msg then
    "Please approve the transaction in MetaMask."
  else "Transaction failed"

/-- The body of `sendTransactionWithRetry` (useFlappyContract lines
95-227), recursing over the remaining endpoint environments.  Probe or
nonce failure advances directly to the next endpoint when one remains
(lines 114-122 and 132-138); every other throw reaches the outer catch,
which retries on the next endpoint only when the original message is
timeout- or network-flavored and an endpoint remains, and otherwise
surfaces the classified message.  The gas-estimation result mutates
`options.gasLimit` (estimate scaled by `150 / 100`, or the fixed
`1000000` fallback); the submission and wait outcomes come from the
environment.  The source is never invoked with an empty endpoint list
(`RPC_ENDPOINTS` is a fixed non-empty constant); the nil case returns
the generic failure. -/
def sendTransactionWithRetry (opts : TxOptions) :
    List EndpointEnv → Except String TxReceipt
  | [] => Except.error "Transaction failed"
  | env :: rest =>
    match env.blockNumber with
    | Except.error e =>
      if rest.length ≠ 0 then sendTransactionWithRetry opts rest
      else Except.error (retryErrorMessage e)
    | Except.ok _ =>
      match env.nonce with
      | Except.error e =>
        if rest.length ≠ 0 then sendTransactionWithRetry opts rest
        else Except.error (retryErrorMessage e)
      | Except.ok _ =>
        let gasPrice := retryGasPrice env.feeGasPrice
        if env.balance < gasPrice * 500000 then
          let m := insufficientFundsThrow env.balance
          if rest.length ≠ 0 ∧ (jsIncludes "timeout" m ∨ jsIncludes "network" m) then
            sendTransactionWithRetry opts rest
          else Except.error (retryErrorMessage m)
        else
          let step : Except String TxOptions :=
            match env.gasEstimate with
            | Except.ok g => Except.ok { opts with gasLimit := some (g * 150 / 100) }
            | Except.error e =>
              if jsIncludes "insufficient funds" e then
                Except.error
                  "Not enough STT for gas. Please make sure your wallet has enough STT tokens."
              else if jsIncludes "execution reverted" e then
                Except.error ("Transaction would fail: " ++ e)
              else Except.ok { opts with gasLimit := some 1000000 }
          match step with
          | Except.error m =>
            if rest.length ≠ 0 ∧ (jsIncludes "timeout" m ∨ jsIncludes "network" m) then
              sendTransactionWithRetry opts rest
            else Except.error (retryErrorMessage m)
          | Except.ok opts1 =>
            match env.send with
            | Except.error m =>
              if rest.length ≠ 0 ∧ (jsIncludes "timeout" m ∨ jsIncludes "network" m) then
                sendTransactionWithRetry opts1 rest
              else Except.error (retryErrorMessage m)
            | Except.ok _ =>
              match env.wait with
              | Except.error m =>
                if rest.length ≠ 0 ∧ (jsIncludes "timeout" m ∨ jsIncludes "network" m) then
                  sendTransactionWithRetry opts1 rest
                else Except.error (retryErrorMessage m)
              | Except.ok receipt =>
                if !receipt.statusOk then
                  let m := "Transaction failed on-chain"
                  if rest.length ≠ 0 ∧ (jsIncludes "timeout" m ∨ jsIncludes "network" m) then
                    sendTransactionWithRetry opts1 rest
                  else Except.error (retryErrorMessage m)
                else Except.ok receipt

/-! Game-action orchestrator (claims C2 and C4): `endGame` of
useFlappyContract (src/unnamed/part_000 lines 626-901). -/

/-- An entry of the local-scores array persisted under the
`flappySomnia_localScores` key.  `saveScoreLocally` (lines 719-744)
pushes a pending promise, not a string, as `address`, and the outer
catch (lines 856-863) pushes no `address` at all, so `address` is an
`Option` that is `none` whenever the stored value is not a string. -/
structure LocalScore where
  gameId : Int
  address : Option String := none
  score : Int
  totalJumps : Int
  timestamp : Int
deriving DecidableEq, Repr

/-- The result of `games(gameId)` used by the pre-verification. -/
structure GameInfo where
  player : String
  ended : Bool
deriving DecidableEq, Repr

/-- Outcomes of the asynchronous calls made by one `endGame`
invocation; every `Date.now()` read during the invocation is modelled
by the single instant `now`. -/
structure EndGameEnv where
  now : Int
  signerAddress : String
  switchNetwork : Except String Unit
  feeGasPrice : Except String (Option Nat)
  gamesCall : Except String GameInfo
  sendTx : Except String String
  waitTx : Except String Unit
deriving Repr

/-- What `endGame` hands back to its caller: a chain success with the
transaction hash, a `success: true, localOnly: true` object carrying a
message (the outer catch, lines 892-897), or an exception that escapes
(only possible before the outer `try`). -/
inductive EndGameResult
  | success (hash : String)
  | localSuccess (message : String)
  | thrown (message : String)
deriving DecidableEq, Repr

/-- The state the orchestrator mutates: the shared transaction queue
and the local-scores array. -/
structure OrchestratorState where
  queue : List QueuedTransaction
  localScores : List LocalScore
deriving DecidableEq, Repr

/-- `addToQueue` (useTransactionQueue.ts lines 50-52): append. -/
def addToQueue (st : OrchestratorState) (tx : QueuedTransaction) : OrchestratorState :=
  { st with queue := st.queue ++ [tx] }

/-- The Pending EndGame record enqueued at lines 664-674. -/
def endGamePendingRecord (gameId finalScore totalJumps now : Int) : QueuedTransaction :=
  { id := s!"end-{gameId}-{now}"
    type := TxKind.endGame
    status := some TxStatus.pending
    timestamp := now
    data := some
      { gameId := some gameId
        finalScore := some finalScore
        totalJumps := some totalJumps } }

/-- The Confirmed local-only EndGame record enqueued by both catch
blocks (lines 825-838 and 877-890). -/
def endGameLocalRecord (gameId finalScore totalJumps now : Int)
    (userMessage : String) : QueuedTransaction :=
  { id := s!"end-local-{gameId}-{now}"
    type := TxKind.endGame
    status := some TxStatus.confirmed
    timestamp := now
    data := some
      { gameId := some gameId
        finalScore := some finalScore
        totalJumps := some totalJumps
        localOnly := some true
        error := some userMessage } }

/-- `saveScoreLocally` (lines 719-744): push the score entry onto the
local-scores array.  The `address` field receives an unawaited promise,
which is not a string, hence `none`. -/
def saveScoreLocally (gameId finalScore totalJumps now : Int)
    (st : OrchestratorState) : OrchestratorState :=
  { st with localScores := st.localScores ++
      [{ gameId := gameId
         address := none
         score := finalScore
         totalJumps := totalJumps
         timestamp := Int.fdiv now 1000 }] }

/-- The user-facing message chosen by the inner transaction catch
(lines 807-822) from case-sensitive substring matches on the original
error message. -/
def endGameUserMessage (m : String) : String :=
  if jsIncludes "CALL_EXCEPTION" m || jsIncludes "transaction failed" m then
    "Game score could not be saved on-chain due to contract error, but was recorded locally."
  else if jsIncludes "already ended" m then
    "This game was already ended."
  else if jsIncludes "only end games" m then
    "You can only end games that you started."
  else if jsIncludes "timeout" m then
    "Network response took too long. Your score was recorded locally."
  else if jsIncludes "user rejected" m then
    "Transaction was rejected in your wallet. Your score was recorded locally."
  else if jsIncludes "insufficient funds" m then
    "Not enough STT tokens to pay for the transaction. Your score was recorded locally."
  else "Failed to save your score on the blockchain, but it was recorded locally."

/-- The outer catch of `endGame` (lines 842-897): push the score onto
the local-scores array (without an address field), enqueue a Confirmed
local-only record carrying the message, and return a
`success: true, localOnly: true` result. -/
def endGameOuterCatch (gameId finalScore totalJumps : Int) (env : EndGameEnv)
    (msg : String) (st : OrchestratorState) : EndGameResult × OrchestratorState :=
  let st1 := { st with localScores := st.localScores ++
      [{ gameId := gameId
         address := none
         score := finalScore
         totalJumps := totalJumps
         timestamp := Int.fdiv env.now 1000 }] }
  let userMessage :=
    if msg == "" then "Game ended, but score could not be saved on the blockchain." else msg
  let st2 := addToQueue st1 (endGameLocalRecord gameId finalScore totalJumps env.now userMessage)
  (EndGameResult.localSuccess userMessage, st2)

/-- The inner transaction catch of `endGame` (lines 801-841): save the
score locally, enqueue a Confirmed local-only record with the chosen
message, then rethrow that message, which the outer catch receives. -/
def endGameInnerCatch (gameId finalScore totalJumps : Int) (env : EndGameEnv)
    (m : String) (st : OrchestratorState) : EndGameResult × OrchestratorState :=
  let st1 := saveScoreLocally gameId finalScore totalJumps env.now st
  let userMessage := endGameUserMessage m
  let st2 := addToQueue st1 (endGameLocalRecord gameId finalScore totalJumps env.now userMessage)
  endGameOuterCatch gameId finalScore totalJumps env userMessage st2

/-- The pre-verification of lines 688-708: querying `games(gameId)`
yields a fatal message when the game is already ended, when the caller
is not the starter (addresses compared lowercased), or when the query
error itself mentions those violations; any other query failure is
non-fatal (`gameVerified` stays false and submission proceeds). -/
def verificationFatalMsg (env : EndGameEnv) : Option String :=
  match env.gamesCall with
  | Except.ok info =>
    if info.ended then some "Game has already ended"
    else if info.player.toLower ≠ env.signerAddress.toLower then
      some "You can only end games that you started"
    else none
  | Except.error e =>
    if jsIncludes "already ended" e || jsIncludes "only end games" e then some e
    else none

/-- The message of the chain-submission failure, when one occurred:
the send error, or else the confirmation-wait error. -/
def submitFailureMsg (env : EndGameEnv) : Option String :=
  match env.sendTx with
  | Except.error m => some m
  | Except.ok _ =>
    match env.waitTx with
    | Except.error m => some m
    | Except.ok _ => none

/-- The body of `endGame` (useFlappyContract lines 626-901) for an
initialized contract and signer: validate the arguments, switch the
network, enqueue the Pending record, compute the (unused downstream)
legacy gas price, pre-verify, then submit and wait; the transaction
catch and the outer catch handle every failure.  The uninitialized
check at lines 632-634 throws before the `try` and is modelled by
`endGameUninitialized`. -/
def endGame (gameId finalScore totalJumps : Int) (env : EndGameEnv)
    (st : OrchestratorState) : EndGameResult × OrchestratorState :=
  if gameId ≤ 0 then
    endGameOuterCatch gameId finalScore totalJumps env "Invalid game ID" st
  else if finalScore < 0 then
    endGameOuterCatch gameId finalScore totalJumps env "Invalid score" st
  else
    match env.switchNetwork with
    | Except.error e => endGameOuterCatch gameId finalScore totalJumps env e st
    | Except.ok _ =>
      let st1 := addToQueue st (endGamePendingRecord gameId finalScore totalJumps env.now)
      let _gasPrice : Nat :=
        match env.feeGasPrice with
        | Except.error _ => 20000000000
        | Except.ok feeGasPrice => handleEndGameGasPrice feeGasPrice
      match verificationFatalMsg env with
      | some m => endGameOuterCatch gameId finalScore totalJumps env m st1
      | none =>
        match env.sendTx with
        | Except.error m => endGameInnerCatch gameId finalScore totalJumps env m st1
        | Except.ok txHash =>
          let st2 := addToQueue st1
            { endGamePendingRecord gameId finalScore totalJumps env.now with hash := some txHash }
          match env.waitTx with
          | Except.error m => endGameInnerCatch gameId finalScore totalJumps env m st2
          | Except.ok _ =>
            let st3 := addToQueue st2
              { endGamePendingRecord gameId finalScore totalJumps env.now with
                  status := some TxStatus.confirmed, hash := some txHash }
            let st4 := saveScoreLocally gameId finalScore totalJumps env.now st3
            (EndGameResult.success txHash, st4)

/-- The guard before the `try` (lines 632-634): with no initialized
contract or signer the call throws to its caller. -/
def endGameUninitialized : EndGameResult :=
  EndGameResult.thrown "Contract not initialized"

/-! Leaderboard merge (claim C3): `updateWithLocalScores` of
useLeaderboard.ts lines 56-139, and the localStorage keys involved. -/

/-- A leaderboard row `{ address, score, timestamp }`. -/
structure LeaderboardEntry where
  address : String
  score : Int
  timestamp : Int
deriving DecidableEq, Repr

/-- The localStorage keys touched by the transaction layer, with the
parsed payload behind each key (`none` models an absent key).  The
queue manager persists under `flappySomnia_transactionQueue`
(useTransactionQueue.ts line 13) and `saveScoreLocally` writes
`flappySomnia_localScores` (part_000 lines 722 and 742), while the
leaderboard merge reads `flappyFuse_transactionQueue` and
`flappyFuse_localScores` (useLeaderboard.ts lines 61 and 103). -/
structure LocalStore where
  somniaTxQueue : Option (List QueuedTransaction) := none
  somniaLocalScores : Option (List LocalScore) := none
  fuseTxQueue : Option (List QueuedTransaction) := none
  fuseLocalScores : Option (List LocalScore) := none
deriving Repr

/-- The queue persistence effect (useTransactionQueue.ts lines 37-47):
every queue change rewrites the full list under
`flappySomnia_transactionQueue`. -/
def persistQueue (store : LocalStore) (q : List QueuedTransaction) : LocalStore :=
  { store with somniaTxQueue := some q }

/-- The local-scores persistence effect (part_000 line 742):
`saveScoreLocally` rewrites the full array under
`flappySomnia_localScores`. -/
def persistLocalScores (store : LocalStore) (scores : List LocalScore) : LocalStore :=
  { store with somniaLocalScores := some scores }

/-- Stable insertion used by `sortBy`: the new element is placed before
the first element it may precede. -/
def insertBy {α : Type} (le : α → α → Bool) (x : α) : List α → List α
  | [] => [x]
  | y :: ys => if le x y then x :: y :: ys else y :: insertBy le x ys

/-- A stable sort: JavaScript `Array.prototype.sort` with a consistent
comparator is a stable sort, and `sortBy le` with `le x y` meaning
"x may stay before y" computes the same ordering. -/
def sortBy {α : Type} (le : α → α → Bool) (l : List α) : List α :=
  l.foldr (insertBy le) []

/-- Replace the value under a key in an association list, appending the
pair when the key is new (JavaScript object assignment). -/
def assocSet (k : Int) (v : LeaderboardEntry) :
    List (Int × LeaderboardEntry) → List (Int × LeaderboardEntry)
  | [] => [(k, v)]
  | (k0, v0) :: rest =>
    if k0 = k then (k, v) :: rest else (k0, v0) :: assocSet k v rest

/-- Look up a key in an association list. -/
def assocFind (k : Int) : List (Int × LeaderboardEntry) → Option LeaderboardEntry
  | [] => none
  | (k0, v0) :: rest => if k0 = k then some v0 else assocFind k rest

/-- The body of `updateWithLocalScores` (useLeaderboard.ts lines
56-139) with `Date.now()` passed in as `now`.  It reads the
transaction queue from the `flappyFuse_transactionQueue` key and the
local scores from the `flappyFuse_localScores` key, merges their
contributions into `currentEntries`, sorts by score descending
(stable) and keeps the top 10.  Queue contribution: Confirmed `end`
records with a defined `data.finalScore` and `data.gameId`,
deduplicated per `gameId` keeping the larger score (`Object.values`
returns the per-game values keyed by the decimal numeral of `gameId`;
for the non-negative ids the app produces these come out in ascending
key order).  A falsy `data.address` becomes `local_player`.
Local-scores contribution: each entry, with a non-string address
replaced by `local_player` and a falsy (zero) timestamp replaced by
the current second. -/
def updateWithLocalScores (store : LocalStore) (now : Int)
    (currentEntries : List LeaderboardEntry) : List LeaderboardEntry :=
  let queueEntries : List LeaderboardEntry :=
    match store.fuseTxQueue with
    | none => []
    | some transactions =>
      let endGameTxs := transactions.filter fun tx =>
        tx.type == TxKind.endGame && tx.status == some TxStatus.confirmed &&
        (tx.data.bind fun d => d.finalScore).isSome &&
        (tx.data.bind fun d => d.gameId).isSome
      let localScores := endGameTxs.foldl
        (fun acc tx =>
          let gid := (tx.data.bind fun d => d.gameId).getD 0
          let sc := (tx.data.bind fun d => d.finalScore).getD 0
          let entry : LeaderboardEntry :=
            { score := sc
              timestamp := Int.fdiv tx.timestamp 1000
              address :=
                match tx.data.bind fun d => d.address with
                | some a => if a == "" then "local_player" else a
                | none => "local_player" }
          match assocFind gid acc with
          | none => assocSet gid entry acc
          | some existing =>
            if sc > existing.score then assocSet gid entry acc else acc)
        []
      (sortBy (fun a b => decide (a.1 ≤ b.1)) localScores).map (fun p => p.2)
  let localStoreEntries : List LeaderboardEntry :=
    match store.fuseLocalScores with
    | none => []
    | some scores =>
      scores.map fun (s : LocalScore) =>
        { address := s.address.getD "local_player"
          score := s.score
          timestamp := if s.timestamp = 0 then Int.fdiv now 1000 else s.timestamp }
  let mergedEntries := currentEntries ++ queueEntries ++ localStoreEntries
  (sortBy (fun a b => decide (b.score ≤ a.score)) mergedEntries).take 10

/-! Theorems about the embedded operations. -/

/-- C5 counterexample: reconcile does not correct the stale-false
direction.  On the state whose queue holds a pending record while the
cached flag is `false`, `checkAndFixPendingState` leaves the flag
`false` even though the recomputed predicate is `true`, so after the
call the cached flag differs from the predicate. -/
theorem checkAndFixPendingState_stale_false_not_raised :
    (checkAndFixPendingState
      { queue := [{ id := "p1", type := TxKind.start,
                    status := some TxStatus.pending, timestamp := 0 }],
        isPending := false }).2.isPending = false ∧
    hasPendingTx
      [{ id := "p1", type := TxKind.start,
         status := some TxStatus.pending, timestamp := 0 }] = true := by
  exact ⟨rfl, rfl⟩

/-- C5 (amended): after `checkAndFixPendingState` the cached flag
equals the conjunction of its old value with the recomputed predicate:
a flag stuck `true` with no pending record is reset to `false`, but a
flag stuck `false` while a pending record exists stays `false` (only
the stuck-true direction is corrected); the queue is unchanged and the
recomputed predicate is returned. -/
theorem checkAndFixPendingState_characterization (s : QueueFlagState) :
    checkAndFixPendingState s =
      (hasPendingTx s.queue,
        { s with isPending := s.isPending && hasPendingTx s.queue }) := by
  obtain ⟨qu, ip⟩ := s
  cases ip <;> cases hp : hasPendingTx qu <;>
    simp [checkAndFixPendingState, hp]

/-- C6 (code bug): an update that supplies only `hash` erases the
matched records `status`.  The normalized update object built at
useTransactionQueue.ts lines 71-74 always carries a `status` key
(`undefined` when the caller supplied none), and spreading it over the
record overwrites the existing status with `undefined` — contradicting
the adjacent comment "Ensure status is a string if present" and the
merge contract.  Here the Confirmed record updated with only a hash
ends with no status at all. -/
theorem updateTransaction_partial_update_erases_status :
    updateTransaction "t1" { hash := some "0xabc" }
      [{ id := "t1", type := TxKind.endGame,
         status := some TxStatus.confirmed, timestamp := 100 }] =
      [{ id := "t1", type := TxKind.endGame,
         status := none, timestamp := 100, hash := some "0xabc" }] := by
  rfl

/-- C8: pruning never removes a Pending record regardless of age, and
removes every Confirmed or Failed record whose timestamp is older than
the one-hour retention threshold, while records younger than the
threshold are kept. -/
theorem clearOldTransactions_retention (now : Int) (q : List QueuedTransaction)
    (tx : QueuedTransaction) (hmem : tx ∈ q) :
    (tx.status = some TxStatus.pending → tx ∈ clearOldTransactions now q) ∧
    ((tx.status = some TxStatus.confirmed ∨ tx.status = some TxStatus.failed) →
      tx.timestamp < now - 60 * 60 * 1000 → tx ∉ clearOldTransactions now q) ∧
    (now - 60 * 60 * 1000 < tx.timestamp → tx ∈ clearOldTransactions now q) := by
  refine ⟨fun hp => ?_, fun hs ht => ?_, fun ht => ?_⟩
  · simp [clearOldTransactions, List.mem_filter, hmem, hp]
  · simp only [clearOldTransactions, List.mem_filter, hmem, true_and]
    rcases hs with hs | hs <;> simp [hs] <;> omega
  · simp only [clearOldTransactions, List.mem_filter, hmem, true_and]
    simp only [Bool.or_eq_true, decide_eq_true_eq]
    exact Or.inr (by omega)

/-- Witness for `clearOldTransactions_retention` at a concrete queue:
an aged pending record in a two-record queue. -/
theorem clearOldTransactions_retention_witness :
    (({ id := "p", type := TxKind.start, status := some TxStatus.pending,
        timestamp := 0 } : QueuedTransaction).status = some TxStatus.pending →
      ({ id := "p", type := TxKind.start, status := some TxStatus.pending,
         timestamp := 0 } : QueuedTransaction) ∈
        clearOldTransactions 10000000
          [{ id := "p", type := TxKind.start, status := some TxStatus.pending,
             timestamp := 0 },
           { id := "c", type := TxKind.endGame, status := some TxStatus.confirmed,
             timestamp := 0 }]) ∧
    ((({ id := "p", type := TxKind.start, status := some TxStatus.pending,
         timestamp := 0 } : QueuedTransaction).status = some TxStatus.confirmed ∨
      ({ id := "p", type := TxKind.start, status := some TxStatus.pending,
         timestamp := 0 } : QueuedTransaction).status = some TxStatus.failed) →
      ({ id := "p", type := TxKind.start, status := some TxStatus.pending,
         timestamp := 0 } : QueuedTransaction).timestamp < 10000000 - 60 * 60 * 1000 →
      ({ id := "p", type := TxKind.start, status := some TxStatus.pending,
         timestamp := 0 } : QueuedTransaction) ∉
        clearOldTransactions 10000000
          [{ id := "p", type := TxKind.start, status := some TxStatus.pending,
             timestamp := 0 },
           { id := "c", type := TxKind.endGame, status := some TxStatus.confirmed,
             timestamp := 0 }]) ∧
    (10000000 - 60 * 60 * 1000 <
      ({ id := "p", type := TxKind.start, status := some TxStatus.pending,
         timestamp := 0 } : QueuedTransaction).timestamp →
      ({ id := "p", type := TxKind.start, status := some TxStatus.pending,
         timestamp := 0 } : QueuedTransaction) ∈
        clearOldTransactions 10000000
          [{ id := "p", type := TxKind.start, status := some TxStatus.pending,
             timestamp := 0 },
           { id := "c", type := TxKind.endGame, status := some TxStatus.confirmed,
             timestamp := 0 }]) := by
  exact clearOldTransactions_retention 10000000 _ _ (by simp)

/-- Helper: the effect of one `updateTransaction` call on the record
stored at any position.  The record is either untouched, or it is the
matched record and receives either the status-preserving merge (when a
pending status was attempted on a Confirmed record) or the full merge. -/
theorem updateTransaction_getElem_cases (id : String) (u : TxUpdates)
    (q : List QueuedTransaction) (i : Nat) :
    (updateTransaction id u q)[i]? = q[i]? ∨
    ∃ tx, q[i]? = some tx ∧
      ((updateTransaction id u q)[i]? = some (mergeOtherFields tx u) ∧
          u.status = some TxStatus.pending ∧ tx.status = some TxStatus.confirmed ∨
        (updateTransaction id u q)[i]? = some (mergeAllFields tx u) ∧
          ¬(u.status = some TxStatus.pending ∧ tx.status = some TxStatus.confirmed)) := by
  unfold updateTransaction
  cases hf : q.findIdx? (fun tx => tx.id == id) with
  | none => exact Or.inl rfl
  | some j =>
    dsimp only
    cases hj : q[j]? with
    | none => exact Or.inl rfl
    | some txj =>
      dsimp only
      have hjlen : j < q.length := by
        by_contra hlt
        rw [List.getElem?_eq_none (Nat.le_of_not_lt hlt)] at hj
        cases hj
      by_cases hguard : u.status = some TxStatus.pending ∧ txj.status = some TxStatus.confirmed
      · rw [if_pos hguard]
        by_cases hij : j = i
        · subst hij
          exact Or.inr ⟨txj, hj, Or.inl ⟨by simp [List.getElem?_set, hjlen], hguard.1, hguard.2⟩⟩
        · exact Or.inl (List.getElem?_set_ne hij)
      · rw [if_neg hguard]
        by_cases hij : j = i
        · subst hij
          exact Or.inr ⟨txj, hj, Or.inr ⟨by simp [List.getElem?_set, hjlen], hguard⟩⟩
        · exact Or.inl (List.getElem?_set_ne hij)

/-- Helper: when the matched record is Confirmed and the update
attempts a pending status, the whole call reduces to replacing the
matched record by the status-preserving merge. -/
theorem updateTransaction_eq_set_of_confirmed_pending (id : String) (u : TxUpdates)
    (q : List QueuedTransaction) (i : Nat) (tx : QueuedTransaction)
    (hf : q.findIdx? (fun t => t.id == id) = some i)
    (hq : q[i]? = some tx)
    (hc : tx.status = some TxStatus.confirmed)
    (hu : u.status = some TxStatus.pending) :
    updateTransaction id u q = q.set i (mergeOtherFields tx u) := by
  unfold updateTransaction
  rw [hf]
  dsimp only
  rw [hq]
  dsimp only
  rw [if_pos ⟨hu, hc⟩]

/-- C1: a record whose status is Confirmed never has status Pending
after a further `updateTransaction` call (quantifying over every queue
state covers every point of every call sequence), and when a call
explicitly attempts `status: pending` on the matched Confirmed
record, that record keeps status Confirmed while the remaining update
fields are still merged and all other records stay untouched. -/
theorem updateTransaction_confirmed_never_pending
    (q1 q2 : List QueuedTransaction) (id1 id2 : String) (u1 u2 : TxUpdates)
    (i1 i2 : Nat) (tx1 tx1' tx2 : QueuedTransaction)
    (h1 : q1[i1]? = some tx1)
    (h2 : (updateTransaction id1 u1 q1)[i1]? = some tx1')
    (h3 : tx1.status = some TxStatus.confirmed)
    (h4 : q2.findIdx? (fun t => t.id == id2) = some i2)
    (h5 : q2[i2]? = some tx2)
    (h6 : tx2.status = some TxStatus.confirmed)
    (h7 : u2.status = some TxStatus.pending) :
    tx1'.status ≠ some TxStatus.pending ∧
    updateTransaction id2 u2 q2 = q2.set i2 (mergeOtherFields tx2 u2) ∧
    (mergeOtherFields tx2 u2).status = some TxStatus.confirmed := by
  refine ⟨?_, updateTransaction_eq_set_of_confirmed_pending id2 u2 q2 i2 tx2 h4 h5 h6 h7, ?_⟩
  · rcases updateTransaction_getElem_cases id1 u1 q1 i1 with heq | ⟨tx, htx, hcase⟩
    · rw [heq, h1] at h2
      cases h2
      simp [h3]
    · rw [h1] at htx
      cases htx
      rcases hcase with ⟨heq, _, hc⟩ | ⟨heq, hneg⟩
      · rw [heq] at h2
        cases h2
        simp [mergeOtherFields, hc]
      · rw [heq] at h2
        cases h2
        have hune : u1.status ≠ some TxStatus.pending := fun hu => hneg ⟨hu, h3⟩
        simpa [mergeAllFields, mergeOtherFields] using hune
  · simp [mergeOtherFields, h6]

/-- Witness for `updateTransaction_confirmed_never_pending` at a
concrete Confirmed record receiving a pending-status update carrying a
hash. -/
theorem updateTransaction_confirmed_never_pending_witness :
    ({ id := "t1", type := TxKind.endGame, status := some TxStatus.confirmed,
       timestamp := 100, hash := some "0xh", data := none, error := none }
        : QueuedTransaction).status ≠ some TxStatus.pending ∧
    updateTransaction "t1" { status := some TxStatus.pending, hash := some "0xh" }
      [{ id := "t1", type := TxKind.endGame, status := some TxStatus.confirmed,
         timestamp := 100 }] =
      [{ id := "t1", type := TxKind.endGame, status := some TxStatus.confirmed,
         timestamp := 100 }].set 0
        (mergeOtherFields
          { id := "t1", type := TxKind.endGame, status := some TxStatus.confirmed,
            timestamp := 100 }
          { status := some TxStatus.pending, hash := some "0xh" }) ∧
    (mergeOtherFields
      { id := "t1", type := TxKind.endGame, status := some TxStatus.confirmed,
        timestamp := 100 }
      { status := some TxStatus.pending, hash := some "0xh" }).status =
      some TxStatus.confirmed := by
  exact updateTransaction_confirmed_never_pending
    [{ id := "t1", type := TxKind.endGame, status := some TxStatus.confirmed,
       timestamp := 100 }]
    [{ id := "t1", type := TxKind.endGame, status := some TxStatus.confirmed,
       timestamp := 100 }]
    "t1" "t1"
    { status := some TxStatus.pending, hash := some "0xh" }
    { status := some TxStatus.pending, hash := some "0xh" }
    0 0 _ _ _ rfl rfl rfl rfl rfl rfl rfl

/-- The Confirmed EndGame record of the leaderboard-merge example:
gameId 5, finalScore 120, address C. -/
def exampleEndGameRecord : QueuedTransaction :=
  { id := "end-5-9"
    type := TxKind.endGame
    status := some TxStatus.confirmed
    timestamp := 9000
    data := some { gameId := some 5, finalScore := some 120, address := some "0xC" } }

/-- The on-chain base of the leaderboard-merge example. -/
def exampleChainEntries : List LeaderboardEntry :=
  [{ address := "0xA", score := 100, timestamp := 1 },
   { address := "0xB", score := 80, timestamp := 2 }]

/-- C3 (code bug): the leaderboard merge reads localStorage keys that
nothing writes.  The queue manager persists the queue under
`flappySomnia_transactionQueue`, but `updateWithLocalScores` reads
`flappyFuse_transactionQueue` (and likewise `flappyFuse_localScores`
versus the `flappySomnia_localScores` written by `saveScoreLocally`),
so a Confirmed EndGame record with finalScore 120 persisted by the
queue manager contributes nothing and the merge returns only the
on-chain base — while the very same merge logic applied to the key it
does read produces the specified `[C:120, A:100, B:80]`. -/
theorem leaderboard_merge_reads_unwritten_keys :
    updateWithLocalScores (persistQueue {} [exampleEndGameRecord]) 777000
        exampleChainEntries = exampleChainEntries ∧
    updateWithLocalScores { fuseTxQueue := some [exampleEndGameRecord] } 777000
        exampleChainEntries =
      { address := "0xC", score := 120, timestamp := 9 } :: exampleChainEntries := by
  exact ⟨rfl, rfl⟩

/-- C9: the legacy gas price used at both submission sites is exactly
the fee estimate multiplied by 150 and divided by 100 (truncating, the
fixed 50 percent markup) when an estimate is available, and exactly
the hardcoded 20 gwei (20e9 wei) default when it is not. -/
theorem legacyGasPrice_markup_and_default (p : Nat) :
    handleEndGameGasPrice (some p) = p * 150 / 100 ∧
    retryGasPrice (some p) = p * 150 / 100 ∧
    handleEndGameGasPrice none = 20 * 10 ^ 9 ∧
    retryGasPrice none = 20 * 10 ^ 9 := by
  refine ⟨rfl, rfl, ?_, ?_⟩ <;> norm_num [handleEndGameGasPrice, retryGasPrice]

/-- C10: every jump handed to `addJumpToBatch` is stored (in the
pending buffer, or in the processed buffer when the batch flushes)
with its zero fields replaced by one: the recorded `scoreAtJump` is the
input value when non-zero and `1` otherwise, and likewise for
`multiplierAtJump`, while the timestamp is kept. -/
theorem addJumpToBatch_zero_fields_replaced_by_one
    (now : Int) (jumpData : JumpData) (st : WalletJumpState) :
    ∃ stored : JumpData,
      (stored ∈ (addJumpToBatch now jumpData st).pendingJumps ∨
        stored ∈ (addJumpToBatch now jumpData st).processedJumps) ∧
      stored.timestamp = jumpData.timestamp ∧
      stored.scoreAtJump =
        (if jumpData.scoreAtJump = 0 then 1 else jumpData.scoreAtJump) ∧
      stored.multiplierAtJump =
        (if jumpData.multiplierAtJump = 0 then 1 else jumpData.multiplierAtJump) := by
  refine ⟨normalizeJump jumpData, ?_, rfl, rfl, rfl⟩
  unfold addJumpToBatch
  by_cases hlen : 10 ≤ (st.pendingJumps ++ [normalizeJump jumpData]).length
  · simp only [hlen, if_pos]
    have hmem : normalizeJump jumpData ∈ st.pendingJumps ++ [normalizeJump jumpData] := by
      simp
    rw [← List.take_append_drop 10 (st.pendingJumps ++ [normalizeJump jumpData])] at hmem
    rcases List.mem_append.mp hmem with hmem | hmem
    · right
      unfold lastN
      have hll : (st.pendingJumps ++ [normalizeJump jumpData]).length =
          st.pendingJumps.length + 1 := by simp
      have hblen : ((st.pendingJumps ++ [normalizeJump jumpData]).take 10).length = 10 := by
        rw [List.length_take]
        omega
      have hle :
          (st.processedJumps ++
            (st.pendingJumps ++ [normalizeJump jumpData]).take 10).length - 50 ≤
            st.processedJumps.length := by
        rw [List.length_append, hblen]
        omega
      rw [List.drop_append_of_le_length hle]
      exact List.mem_append.mpr (Or.inr hmem)
    · left
      exact hmem
  · simp only [hlen, if_neg, not_false_iff]
    left
    simp

/-- Helper: the inner-catch message map never produces the empty
string. -/
theorem endGameUserMessage_ne_empty (m : String) : endGameUserMessage m ≠ "" := by
  unfold endGameUserMessage
  split_ifs <;> decide

/-- Helper: a fatal pre-verification message is never empty. -/
theorem verificationFatalMsg_ne_empty (env : EndGameEnv) (m : String)
    (h : verificationFatalMsg env = some m) : m ≠ "" := by
  unfold verificationFatalMsg at h
  cases hg : env.gamesCall with
  | ok info =>
    rw [hg] at h
    dsimp only at h
    split_ifs at h <;> (cases h; try decide)
  | error e =>
    rw [hg] at h
    dsimp only at h
    split_ifs at h with hinc
    cases h
    intro he
    subst he
    revert hinc
    decide

/-- Helper: the outer catch appends one local score entry and one
Confirmed local-only record, and returns the message as a local
success (for a non-empty message, which every reachable throw
carries). -/
theorem endGameOuterCatch_effects (gameId finalScore totalJumps : Int)
    (env : EndGameEnv) (msg : String) (st : OrchestratorState) (hmsg : msg ≠ "") :
    endGameOuterCatch gameId finalScore totalJumps env msg st =
      (EndGameResult.localSuccess msg,
        { queue := st.queue ++
            [endGameLocalRecord gameId finalScore totalJumps env.now msg]
          localScores := st.localScores ++
            [{ gameId := gameId, address := none, score := finalScore,
               totalJumps := totalJumps, timestamp := Int.fdiv env.now 1000 }] }) := by
  have hbeq : (msg == "") = false := by
    simpa [beq_eq_false_iff_ne] using hmsg
  unfold endGameOuterCatch addToQueue
  rw [hbeq]
  rfl

/-- Helper: the transaction catch saves the score locally, enqueues the
Confirmed local-only record, and rethrows into the outer catch, which
does both again; the caller receives the classified message as a local
success. -/
theorem endGameInnerCatch_effects (gameId finalScore totalJumps : Int)
    (env : EndGameEnv) (m : String) (st : OrchestratorState) :
    endGameInnerCatch gameId finalScore totalJumps env m st =
      (EndGameResult.localSuccess (endGameUserMessage m),
        { queue := st.queue ++
            [endGameLocalRecord gameId finalScore totalJumps env.now (endGameUserMessage m),
             endGameLocalRecord gameId finalScore totalJumps env.now (endGameUserMessage m)]
          localScores := st.localScores ++
            [{ gameId := gameId, address := none, score := finalScore,
               totalJumps := totalJumps, timestamp := Int.fdiv env.now 1000 },
             { gameId := gameId, address := none, score := finalScore,
               totalJumps := totalJumps, timestamp := Int.fdiv env.now 1000 }] }) := by
  unfold endGameInnerCatch saveScoreLocally addToQueue
  rw [endGameOuterCatch_effects _ _ _ _ _ _ (endGameUserMessage_ne_empty m)]
  simp

/-- Helper: with valid arguments, a successful network switch and a
fatal pre-verification message, `endGame` reduces to the outer catch
applied after the Pending record was enqueued. -/
theorem endGame_eq_outerCatch_of_verification (gameId finalScore totalJumps : Int)
    (env : EndGameEnv) (st : OrchestratorState) (m : String)
    (hid : 0 < gameId) (hscore : 0 ≤ finalScore)
    (hsw : env.switchNetwork = Except.ok ())
    (hver : verificationFatalMsg env = some m) :
    endGame gameId finalScore totalJumps env st =
      endGameOuterCatch gameId finalScore totalJumps env m
        (addToQueue st (endGamePendingRecord gameId finalScore totalJumps env.now)) := by
  unfold endGame
  rw [if_neg (by omega), if_neg (by omega), hsw]
  dsimp only
  rw [hver]

/-- Helper: with valid arguments, a successful switch, non-fatal
pre-verification and a send failure, `endGame` reduces to the inner
catch applied after the Pending record was enqueued. -/
theorem endGame_eq_innerCatch_of_send_error (gameId finalScore totalJumps : Int)
    (env : EndGameEnv) (st : OrchestratorState) (m : String)
    (hid : 0 < gameId) (hscore : 0 ≤ finalScore)
    (hsw : env.switchNetwork = Except.ok ())
    (hver : verificationFatalMsg env = none)
    (hsend : env.sendTx = Except.error m) :
    endGame gameId finalScore totalJumps env st =
      endGameInnerCatch gameId finalScore totalJumps env m
        (addToQueue st (endGamePendingRecord gameId finalScore totalJumps env.now)) := by
  unfold endGame
  rw [if_neg (by omega), if_neg (by omega), hsw]
  dsimp only
  rw [hver]
  dsimp only
  rw [hsend]

/-- Helper: when the broadcast succeeded but the confirmation wait
failed, `endGame` reduces to the inner catch applied after the Pending
record and its hash-carrying copy were enqueued. -/
theorem endGame_eq_innerCatch_of_wait_error (gameId finalScore totalJumps : Int)
    (env : EndGameEnv) (st : OrchestratorState) (m txHash : String)
    (hid : 0 < gameId) (hscore : 0 ≤ finalScore)
    (hsw : env.switchNetwork = Except.ok ())
    (hver : verificationFatalMsg env = none)
    (hsend : env.sendTx = Except.ok txHash)
    (hwait : env.waitTx = Except.error m) :
    endGame gameId finalScore totalJumps env st =
      endGameInnerCatch gameId finalScore totalJumps env m
        (addToQueue
          (addToQueue st (endGamePendingRecord gameId finalScore totalJumps env.now))
          { endGamePendingRecord gameId finalScore totalJumps env.now with
              hash := some txHash }) := by
  unfold endGame
  rw [if_neg (by omega), if_neg (by omega), hsw]
  dsimp only
  rw [hver]
  dsimp only
  rw [hsend]
  dsimp only
  rw [hwait]

/-- Helper: when the broadcast and the confirmation wait both succeed,
`endGame` returns the chain success carrying the hash. -/
theorem endGame_success_of_ok (gameId finalScore totalJumps : Int)
    (env : EndGameEnv) (st : OrchestratorState) (txHash : String)
    (hid : 0 < gameId) (hscore : 0 ≤ finalScore)
    (hsw : env.switchNetwork = Except.ok ())
    (hver : verificationFatalMsg env = none)
    (hsend : env.sendTx = Except.ok txHash)
    (hwait : env.waitTx = Except.ok ()) :
    (endGame gameId finalScore totalJumps env st).1 = EndGameResult.success txHash := by
  unfold endGame
  rw [if_neg (by omega), if_neg (by omega), hsw]
  dsimp only
  rw [hver]
  dsimp only
  rw [hsend]
  dsimp only
  rw [hwait]

/-- C2: for every end-game invocation with an initialized contract and
signer that reaches the chain submission, a failure of the broadcast
or of the confirmation wait with any message whatsoever — connectivity,
timeout, revert, user rejection, or the unclassified catch-all — ends
with the final score written to the local scores store keyed by the
gameId, the last queue record being a Confirmed EndGame record flagged
`localOnly`, and a local-only success returned. -/
theorem endGame_chain_failure_saves_score_locally
    (gameId finalScore totalJumps : Int) (env : EndGameEnv)
    (st : OrchestratorState) (m : String)
    (hid : 0 < gameId) (hscore : 0 ≤ finalScore)
    (hsw : env.switchNetwork = Except.ok ())
    (hver : verificationFatalMsg env = none)
    (hfail : submitFailureMsg env = some m) :
    (endGame gameId finalScore totalJumps env st).1 =
      EndGameResult.localSuccess (endGameUserMessage m) ∧
    (endGame gameId finalScore totalJumps env st).2.localScores.getLast? =
      some { gameId := gameId, address := none, score := finalScore,
             totalJumps := totalJumps, timestamp := Int.fdiv env.now 1000 } ∧
    (endGame gameId finalScore totalJumps env st).2.queue.getLast? =
      some (endGameLocalRecord gameId finalScore totalJumps env.now
        (endGameUserMessage m)) := by
  cases hs : env.sendTx with
  | error m0 =>
    have hm : m0 = m := by
      unfold submitFailureMsg at hfail
      rw [hs] at hfail
      exact Option.some_injective _ hfail
    subst hm
    rw [endGame_eq_innerCatch_of_send_error gameId finalScore totalJumps env st m0
      hid hscore hsw hver hs]
    rw [endGameInnerCatch_effects]
    refine ⟨rfl, ?_, ?_⟩ <;>
      simp [addToQueue, ← List.append_assoc, List.getLast?_concat]
  | ok txHash =>
    cases hw : env.waitTx with
    | error m0 =>
      have hm : m0 = m := by
        unfold submitFailureMsg at hfail
        rw [hs, hw] at hfail
        exact Option.some_injective _ hfail
      subst hm
      rw [endGame_eq_innerCatch_of_wait_error gameId finalScore totalJumps env st m0 txHash
        hid hscore hsw hver hs hw]
      rw [endGameInnerCatch_effects]
      refine ⟨rfl, ?_, ?_⟩ <;>
        simp [addToQueue, ← List.append_assoc, List.getLast?_concat]
    | ok u =>
      exfalso
      unfold submitFailureMsg at hfail
      rw [hs, hw] at hfail
      cases hfail

/-- Witness environment for the unclassified chain failure: the send
fails with a message matching none of the classifier substrings. -/
def exampleFailEnv : EndGameEnv :=
  { now := 5000
    signerAddress := "0xabc"
    switchNetwork := Except.ok ()
    feeGasPrice := Except.ok none
    gamesCall := Except.error "connection refused"
    sendTx := Except.error "mystery hiccup"
    waitTx := Except.error "unreached" }

/-- Witness for `endGame_chain_failure_saves_score_locally`: a concrete
invocation whose broadcast fails with an unclassified message still
saves the score locally and enqueues the Confirmed local-only record. -/
theorem endGame_chain_failure_saves_score_locally_witness :
    (endGame 7 42 3 exampleFailEnv { queue := [], localScores := [] }).1 =
      EndGameResult.localSuccess (endGameUserMessage "mystery hiccup") ∧
    (endGame 7 42 3 exampleFailEnv
        { queue := [], localScores := [] }).2.localScores.getLast? =
      some { gameId := 7, address := none, score := 42,
             totalJumps := 3, timestamp := Int.fdiv exampleFailEnv.now 1000 } ∧
    (endGame 7 42 3 exampleFailEnv { queue := [], localScores := [] }).2.queue.getLast? =
      some (endGameLocalRecord 7 42 3 exampleFailEnv.now
        (endGameUserMessage "mystery hiccup")) := by
  exact endGame_chain_failure_saves_score_locally 7 42 3 exampleFailEnv
    { queue := [], localScores := [] } "mystery hiccup"
    (by norm_num) (by norm_num) rfl (by decide) rfl

/-- C4 counterexample: a pre-verification that observes the game
already ended does not surface a fatal error — the call completes as a
success.  The rethrown violation lands in the outer catch-all, which
saves the score locally and returns `success: true, localOnly: true`
with the violation text as its message. -/
theorem endGame_already_ended_returns_success :
    (endGame 7 42 3
      { now := 5000, signerAddress := "0xabc",
        switchNetwork := Except.ok (), feeGasPrice := Except.ok none,
        gamesCall := Except.ok { player := "0xabc", ended := true },
        sendTx := Except.error "unreached", waitTx := Except.error "unreached" }
      { queue := [], localScores := [] }).1 =
      EndGameResult.localSuccess "Game has already ended" := by
  decide

/-- C4 (amended): a pre-verification that observes a semantic
violation (already ended, or wrong player) skips the chain submission
and completes as a local-only success carrying the violation message —
the queue gains only the Pending record and the Confirmed local-only
record, never a hash, and the score is saved locally; a
pre-verification failure due to connectivity alone does not block
submission, which can then succeed. -/
theorem endGame_preverification_outcomes
    (gameId finalScore totalJumps : Int) (env1 env2 : EndGameEnv)
    (st1 st2 : OrchestratorState) (m txHash : String)
    (hid : 0 < gameId) (hscore : 0 ≤ finalScore)
    (hsw1 : env1.switchNetwork = Except.ok ())
    (hv1 : verificationFatalMsg env1 = some m)
    (hsw2 : env2.switchNetwork = Except.ok ())
    (hv2 : verificationFatalMsg env2 = none)
    (hsend : env2.sendTx = Except.ok txHash)
    (hwait : env2.waitTx = Except.ok ()) :
    endGame gameId finalScore totalJumps env1 st1 =
      (EndGameResult.localSuccess m,
        { queue := st1.queue ++
            [endGamePendingRecord gameId finalScore totalJumps env1.now,
             endGameLocalRecord gameId finalScore totalJumps env1.now m]
          localScores := st1.localScores ++
            [{ gameId := gameId, address := none, score := finalScore,
               totalJumps := totalJumps, timestamp := Int.fdiv env1.now 1000 }] }) ∧
    (endGame gameId finalScore totalJumps env2 st2).1 =
      EndGameResult.success txHash := by
  refine ⟨?_, endGame_success_of_ok gameId finalScore totalJumps env2 st2 txHash
    hid hscore hsw2 hv2 hsend hwait⟩
  rw [endGame_eq_outerCatch_of_verification gameId finalScore totalJumps env1 st1 m
    hid hscore hsw1 hv1]
  rw [endGameOuterCatch_effects gameId finalScore totalJumps env1 m _
    (verificationFatalMsg_ne_empty env1 m hv1)]
  simp [addToQueue]

/-- Witness for `endGame_preverification_outcomes`: the already-ended
environment next to a healthy one that submits and confirms. -/
theorem endGame_preverification_outcomes_witness :
    endGame 7 42 3
      { now := 5000, signerAddress := "0xabc",
        switchNetwork := Except.ok (), feeGasPrice := Except.ok none,
        gamesCall := Except.ok { player := "0xabc", ended := true },
        sendTx := Except.error "unreached", waitTx := Except.error "unreached" }
      { queue := [], localScores := [] } =
      (EndGameResult.localSuccess "Game has already ended",
        { queue :=
            ([] : List QueuedTransaction) ++
            [endGamePendingRecord 7 42 3 5000,
             endGameLocalRecord 7 42 3 5000 "Game has already ended"]
          localScores := ([] : List LocalScore) ++
            [{ gameId := 7, address := none, score := 42,
               totalJumps := 3, timestamp := Int.fdiv 5000 1000 }] }) ∧
    (endGame 7 42 3
      { now := 6000, signerAddress := "0xabc",
        switchNetwork := Except.ok (), feeGasPrice := Except.ok none,
        gamesCall := Except.ok { player := "0xabc", ended := false },
        sendTx := Except.ok "0xhash", waitTx := Except.ok () }
      { queue := [], localScores := [] }).1 =
      EndGameResult.success "0xhash" := by
  exact endGame_preverification_outcomes 7 42 3
    { now := 5000, signerAddress := "0xabc",
      switchNetwork := Except.ok (), feeGasPrice := Except.ok none,
      gamesCall := Except.ok { player := "0xabc", ended := true },
      sendTx := Except.error "unreached", waitTx := Except.error "unreached" }
    { now := 6000, signerAddress := "0xabc",
      switchNetwork := Except.ok (), feeGasPrice := Except.ok none,
      gamesCall := Except.ok { player := "0xabc", ended := false },
      sendTx := Except.ok "0xhash", waitTx := Except.ok () }
    { queue := [], localScores := [] } { queue := [], localScores := [] }
    "Game has already ended" "0xhash"
    (by norm_num) (by norm_num) rfl (by decide) rfl
    (by simp [verificationFatalMsg]) rfl rfl

/-- Helper: a prefix of `A ++ (X ++ B)` that shares no character with
the non-empty block `X` cannot reach past `A`. -/
theorem prefix_sandwich {α : Type} (p A X B : List α) (hX : X ≠ []) :
    (∀ c ∈ X, c ∉ p) → p <+: A ++ (X ++ B) → p <+: A := by
  induction A generalizing p with
  | nil =>
    intro hd h
    cases p with
    | nil => exact List.nil_prefix
    | cons h0 p' =>
      cases X with
      | nil => exact absurd rfl hX
      | cons x X' =>
        simp only [List.nil_append, List.cons_append] at h
        rcases List.cons_prefix_cons.mp h with ⟨rfl, _⟩
        exact absurd (List.mem_cons_self _ _) (hd h0 (List.mem_cons_self _ _))
  | cons a A' ih =>
    intro hd h
    cases p with
    | nil => exact List.nil_prefix
    | cons h0 p' =>
      simp only [List.cons_append] at h
      rcases List.cons_prefix_cons.mp h with ⟨rfl, htail⟩
      have hd' : ∀ c ∈ X, c ∉ p' := fun c hc hcp => hd c hc (List.mem_cons_of_mem _ hcp)
      exact List.cons_prefix_cons.mpr ⟨rfl, ih p' hd' htail⟩

/-- Helper: an occurrence inside `X ++ B` of a pattern sharing no
character with `X` lies inside `B` (or the pattern is empty). -/
theorem infix_skip {α : Type} (p X B : List α) :
    (∀ c ∈ X, c ∉ p) → p <:+: X ++ B → p = [] ∨ p <:+: B := by
  induction X with
  | nil =>
    intro _ h
    exact Or.inr (by simpa using h)
  | cons x X' ih =>
    intro hd h
    simp only [List.cons_append] at h
    rcases List.infix_cons_iff.mp h with hpre | hinf
    · cases p with
      | nil => exact Or.inl rfl
      | cons h0 p' =>
        rcases List.cons_prefix_cons.mp hpre with ⟨rfl, _⟩
        exact absurd (List.mem_cons_self _ _) (hd h0 (List.mem_cons_self _ _))
    · exact ih (fun c hc => hd c (List.mem_cons_of_mem _ hc)) hinf

/-- Helper: an occurrence inside `A ++ (X ++ B)` of a pattern sharing
no character with the non-empty block `X` lies inside `A` or inside
`B`. -/
theorem infix_sandwich {α : Type} (p A X B : List α) (hX : X ≠ []) :
    (∀ c ∈ X, c ∉ p) → p <:+: A ++ (X ++ B) → p <:+: A ∨ p <:+: B := by
  induction A with
  | nil =>
    intro hd h
    simp only [List.nil_append] at h
    rcases infix_skip p X B hd h with rfl | hB
    · exact Or.inl List.nil_infix
    · exact Or.inr hB
  | cons a A' ih =>
    intro hd h
    simp only [List.cons_append] at h
    rcases List.infix_cons_iff.mp h with hpre | hinf
    · have hp : p <+: a :: (A' ++ (X ++ B)) := hpre
      have : p <+: a :: A' :=
        prefix_sandwich p (a :: A') X B hX hd (by simpa using hp)
      exact Or.inl this.isInfix
    · rcases ih hd hinf with hA | hB
      · exact Or.inl (List.infix_cons hA)
      · exact Or.inr hB

/-- Helper: a digit character of the decimal writer. -/
theorem charOfNat_isDigit (k : Nat) (hk : k < 10) :
    (Char.ofNat (48 + k)).isDigit = true := by
  interval_cases k <;> decide

/-- Helper: every character produced by `natDecimalAux` is a decimal
digit. -/
theorem natDecimalAux_digits (fuel n : Nat) :
    ∀ c ∈ natDecimalAux fuel n, c.isDigit = true := by
  induction fuel generalizing n with
  | zero => intro c hc; cases hc
  | succ fuel ih =>
    intro c hc
    unfold natDecimalAux at hc
    by_cases hn : n < 10
    · rw [if_pos hn] at hc
      rcases List.mem_singleton.mp hc with rfl
      exact charOfNat_isDigit n hn
    · rw [if_neg hn] at hc
      rcases List.mem_append.mp hc with hc | hc
      · exact ih (n / 10) c hc
      · rcases List.mem_singleton.mp hc with rfl
        exact charOfNat_isDigit (n % 10) (Nat.mod_lt n (by omega))

/-- Helper: every character of the decimal numeral is a digit. -/
theorem natDecimal_digits (n : Nat) : ∀ c ∈ natDecimal n, c.isDigit = true :=
  natDecimalAux_digits (n + 1) n

/-- Helper: every character of the formatted ether amount is a decimal
digit or the dot. -/
theorem formatEther_chars (wei : Nat) :
    ∀ c ∈ (formatEther wei).data, c.isDigit = true ∨ c = '.' := by
  intro c hc
  unfold formatEther at hc
  dsimp only at hc
  rcases List.mem_append.mp hc with hc | hc
  · exact Or.inl (natDecimal_digits _ c hc)
  · rcases List.mem_cons.mp hc with rfl | hc
    · exact Or.inr rfl
    · left
      split_ifs at hc with htrim
      · rcases List.mem_singleton.mp hc with rfl
        decide
      · have hc' := List.mem_reverse.mp hc
        have hc'' := (List.dropWhile_sublist _).mem hc'
        have hc3 := List.mem_reverse.mp hc''
        rcases List.mem_append.mp hc3 with hc4 | hc4
        · rcases List.eq_of_mem_replicate hc4 with rfl
          decide
        · exact natDecimal_digits _ c hc4

/-- Helper: the formatted ether amount is never the empty string. -/
theorem formatEther_ne_nil (wei : Nat) : (formatEther wei).data ≠ [] := by
  unfold formatEther
  simp

/-- Helper: a classifier pattern whose characters are neither digits
nor the dot, and which occurs neither in the fixed head nor in the
fixed tail of the balance-check message, does not occur in the full
message for any balance. -/
theorem jsIncludes_insufficientThrow_eq_false (pat : String) (b : Nat)
    (hA : jsIncludes pat "Insufficient funds. Need at least " = false)
    (hB : jsIncludes pat " STT for gas." = false)
    (hd : ∀ c ∈ pat.data, c.isDigit = false ∧ c ≠ '.') :
    jsIncludes pat (insufficientFundsThrow b) = false := by
  unfold jsIncludes at hA hB ⊢
  apply decide_eq_false
  intro hinf
  have hnA := of_decide_eq_false hA
  have hnB := of_decide_eq_false hB
  have hdata : (insufficientFundsThrow b).data =
      ("Insufficient funds. Need at least " : String).data ++
        ((formatEther b).data ++ (" STT for gas." : String).data) := by
    unfold insufficientFundsThrow
    simp
  rw [hdata] at hinf
  have hd' : ∀ c ∈ (formatEther b).data, c ∉ pat.data := by
    intro c hcX hcp
    rcases formatEther_chars b c hcX with hdig | hdot
    · exact absurd hdig (by simp [(hd c hcp).1])
    · exact absurd hdot (hd c hcp).2
  rcases infix_sandwich pat.data _ _ _ (formatEther_ne_nil b) hd' hinf with h | h
  · exact hnA h
  · exact hnB h

/-- Helper: the balance-check message classifies to the generic
`Transaction failed` (its capital I defeats the case-sensitive
`insufficient funds` match) and carries neither of the two substrings
that would trigger a retry on the next endpoint. -/
theorem retryErrorMessage_insufficientThrow (b : Nat) :
    retryErrorMessage (insufficientFundsThrow b) = "Transaction failed" ∧
    jsIncludes "timeout" (insufficientFundsThrow b) = false ∧
    jsIncludes "network" (insufficientFundsThrow b) = false := by
  have h1 := jsIncludes_insufficientThrow_eq_false "insufficient funds" b
    (by decide) (by decide) (by decide)
  have h2 := jsIncludes_insufficientThrow_eq_false "nonce" b
    (by decide) (by decide) (by decide)
  have h3 := jsIncludes_insufficientThrow_eq_false "timeout" b
    (by decide) (by decide) (by decide)
  have h4 := jsIncludes_insufficientThrow_eq_false "user rejected" b
    (by decide) (by decide) (by decide)
  have h5 := jsIncludes_insufficientThrow_eq_false "network" b
    (by decide) (by decide) (by decide)
  refine ⟨?_, h3, h5⟩
  unfold retryErrorMessage
  rw [h1, h2, h3, h4]
  simp

/-- The endpoint environment on which every step succeeds. -/
def exampleGoodEndpoint : EndpointEnv :=
  { blockNumber := Except.ok 1
    nonce := Except.ok 0
    feeGasPrice := some 1000000000
    balance := 1000000000000000000
    gasEstimate := Except.ok 100000
    send := Except.ok "0xh"
    wait := Except.ok { hash := "0xr", statusOk := true } }

/-- The same endpoint with an empty wallet. -/
def exampleLowBalanceEndpoint : EndpointEnv :=
  { exampleGoodEndpoint with balance := 0 }

/-- C7 counterexample: the insufficient-balance failure is immediate —
the healthy second endpoint is never tried — but the surfaced error is
the generic `Transaction failed`, not an insufficient-funds error:
the thrown message starts with a capital `Insufficient funds`, which
the case-sensitive `insufficient funds` classifier misses. -/
theorem sendTransactionWithRetry_low_balance_generic_error :
    sendTransactionWithRetry {} [exampleLowBalanceEndpoint, exampleGoodEndpoint] =
      Except.error "Transaction failed" ∧
    sendTransactionWithRetry {} [exampleGoodEndpoint] =
      Except.ok { hash := "0xr", statusOk := true } ∧
    jsIncludes "insufficient funds" "Transaction failed" = false ∧
    jsIncludes "Insufficient funds" "Transaction failed" = false ∧
    ("Transaction failed" : String) ≠
      "Not enough STT for gas. Please make sure your wallet has enough STT tokens." := by
  refine ⟨rfl, rfl, by decide, by decide, by decide⟩

/-- C7 (amended): when the probe and nonce fetch succeed but the
signer balance is below the conservative worst-case cost (the computed
gas price times the fixed 500000 gas-limit assumption), the dispatcher
fails immediately without trying any further endpoint — but with the
generic `Transaction failed` error rather than an insufficient-funds
one, the case-sensitive classifier having missed the capitalized
throw; a probe failure with endpoints remaining retries on the next
endpoint. -/
theorem sendTransactionWithRetry_failfast_and_retry
    (opts opts2 : TxOptions) (env env2 : EndpointEnv)
    (rest rest2 : List EndpointEnv) (bn nonce : Nat) (e : String)
    (h1 : env.blockNumber = Except.ok bn)
    (h2 : env.nonce = Except.ok nonce)
    (h3 : env.balance < retryGasPrice env.feeGasPrice * 500000)
    (h4 : env2.blockNumber = Except.error e)
    (h5 : rest2 ≠ []) :
    sendTransactionWithRetry opts (env :: rest) = Except.error "Transaction failed" ∧
    sendTransactionWithRetry opts2 (env2 :: rest2) =
      sendTransactionWithRetry opts2 rest2 := by
  obtain ⟨hc1, hc2, hc3⟩ := retryErrorMessage_insufficientThrow env.balance
  constructor
  · simp only [sendTransactionWithRetry]
    rw [h1]
    dsimp only
    rw [h2]
    dsimp only
    rw [if_pos h3, if_neg (by simp [hc2, hc3]), hc1]
  · simp only [sendTransactionWithRetry]
    rw [h4]
    dsimp only
    rw [if_pos (by simpa using h5)]

/-- Witness for `sendTransactionWithRetry_failfast_and_retry`: the
empty wallet fails fast past a healthy endpoint, and a dead probe
falls through to the healthy endpoint. -/
theorem sendTransactionWithRetry_failfast_and_retry_witness :
    sendTransactionWithRetry {} [exampleLowBalanceEndpoint, exampleGoodEndpoint] =
      Except.error "Transaction failed" ∧
    sendTransactionWithRetry {}
        [{ exampleGoodEndpoint with blockNumber := Except.error "dead" },
         exampleGoodEndpoint] =
      sendTransactionWithRetry {} [exampleGoodEndpoint] := by
  exact sendTransactionWithRetry_failfast_and_retry {} {}
    exampleLowBalanceEndpoint
    { exampleGoodEndpoint with blockNumber := Except.error "dead" }
    [exampleGoodEndpoint] [exampleGoodEndpoint] 1 0 "dead"
    rfl rfl (by decide) rfl (List.cons_ne_nil _ _)

end FlappySomnia
